import Mathlib

/-!
Shallow embedding of the pmgmt-agent update-discovery pipeline
(src/pmgmt_agent/cli.py, src/pmgmt_agent/package_managers: __init__.py, apt.py, dnf.py).

Python strings are Lean String values, but every string operation used by the
source (split, strip, lower, replace, substring containment, int conversion)
is implemented here by structural recursion on the underlying character list,
so that all definitions evaluate inside the kernel.  Python dictionaries are
insertion-ordered association lists with string keys.  Subprocess invocations
are oracles passed as function arguments: an Option result models a call run
with check=True (none = CalledProcessError), a plain result models a call run
without check=True.  Python exceptions that the source can raise and does not
catch are modelled with Except.
-/

namespace Pmgmt

/-- Whitespace characters recognised by Python str.split and str.strip
(space, tab, newline, carriage return, vertical tab, form feed). -/
def pyIsSpace (c : Char) : Bool :=
  c == ' ' || c == '\t' || c == '\n' || c == '\r' || c == '\x0B' || c == '\x0C'

/-- Python str.split() with no separator: split on runs of whitespace,
producing no empty parts. -/
def pySplitWsData : List Char → List (List Char)
  | [] => []
  | [c] => if pyIsSpace c then [] else [[c]]
  | c :: d :: rest =>
    if pyIsSpace c then pySplitWsData (d :: rest)
    else if pyIsSpace d then [c] :: pySplitWsData (d :: rest)
    else
      match pySplitWsData (d :: rest) with
      | [] => [[c]]
      | w :: ws => (c :: w) :: ws

/-- Python str.split() lifted to String. -/
def pySplitWs (s : String) : List String :=
  (pySplitWsData s.data).map (fun w => ⟨w⟩)

/-- Is xs a leading segment of ys. -/
def listPrefixOf : List Char → List Char → Bool
  | [], _ => true
  | _ :: _, [] => false
  | x :: xs, y :: ys => x == y && listPrefixOf xs ys

/-- Remove xs from the front of ys when it is a leading segment. -/
def listDropLead : List Char → List Char → Option (List Char)
  | [], l => some l
  | _ :: _, [] => none
  | x :: xs, y :: ys => if x == y then listDropLead xs ys else none

/-- Does xs occur contiguously inside ys (Python substring containment). -/
def listInfixOf (xs : List Char) : List Char → Bool
  | [] => listPrefixOf xs []
  | y :: ys => listPrefixOf xs (y :: ys) || listInfixOf xs ys

/-- Python membership test sub in s on strings. -/
def pyContains (s sub : String) : Bool :=
  listInfixOf sub.data s.data

/-- Python str.lower() (ASCII letters; the source only meets ASCII output). -/
def pyLower (s : String) : String :=
  ⟨s.data.map Char.toLower⟩

/-- Python str.strip() with no argument. -/
def pyStripData (l : List Char) : List Char :=
  ((l.dropWhile pyIsSpace).reverse.dropWhile pyIsSpace).reverse

/-- Python str.strip() lifted to String. -/
def pyStrip (s : String) : String :=
  ⟨pyStripData s.data⟩

/-- Python str.rstrip(c): remove every trailing occurrence of one character. -/
def pyRstripData (c : Char) (l : List Char) : List Char :=
  (l.reverse.dropWhile (· == c)).reverse

/-- Fuel-driven worker for Python str.split(sep).  The fuel starts above the
length of the string, so it never runs out for a non-empty separator (the
source never splits on an empty separator, which Python rejects). -/
def pySplitOnAux (sep : List Char) : Nat → List Char → List (List Char)
  | _, [] => [[]]
  | 0, l => [l]
  | fuel + 1, c :: rest =>
    match listDropLead sep (c :: rest) with
    | some rem => [] :: pySplitOnAux sep fuel rem
    | none =>
      match pySplitOnAux sep fuel rest with
      | [] => [[c]]
      | w :: ws => (c :: w) :: ws

/-- Python str.split(sep) on character lists, for a non-empty separator. -/
def pySplitOnData (sep l : List Char) : List (List Char) :=
  pySplitOnAux sep (l.length + 1) l

/-- Python s.split(sep) lifted to String. -/
def pySplitOn (s sep : String) : List String :=
  (pySplitOnData sep.data s.data).map (fun w => ⟨w⟩)

/-- Python s.split(sep, 1) when sep occurs in s: the part before the first
occurrence and the untouched remainder after it.  none when sep is absent. -/
def pySplitOnceRest (s sep : String) : Option (String × String) :=
  match pySplitOnData sep.data s.data with
  | [] => none
  | [_] => none
  | w :: ws => some (⟨w⟩, ⟨List.intercalate sep.data ws⟩)

/-- Python str.replace(old, new), every occurrence, non-empty old. -/
def pyReplace (s old new : String) : String :=
  ⟨List.intercalate new.data (pySplitOnData old.data s.data)⟩

/-- Numeric value of a digit string. -/
def digitsVal (ds : List Char) : Int :=
  ds.foldl (fun n c => n * 10 + ((c.toNat : Int) - 48)) 0

/-- Python int(string): optional surrounding whitespace, optional sign,
decimal digits.  (Digit-group underscores accepted by Python are not
modelled; no claim depends on them.) -/
def pyToIntOpt (s : String) : Option Int :=
  match pyStripData s.data with
  | '+' :: ds => if !ds.isEmpty && ds.all Char.isDigit then some (digitsVal ds) else none
  | '-' :: ds => if !ds.isEmpty && ds.all Char.isDigit then some (-(digitsVal ds)) else none
  | ds => if !ds.isEmpty && ds.all Char.isDigit then some (digitsVal ds) else none

/-- JSON-like dynamic values: the value type of the Python dictionaries the
source builds and of the parsed dnf JSON output. -/
inductive Json where
  | null : Json
  | bool : Bool → Json
  | num : Int → Json
  | str : String → Json
  | arr : List Json → Json
  | obj : List (String × Json) → Json

/-- A Python dictionary with string keys, as an insertion-ordered
association list. -/
abbrev PyDict := List (String × Json)

/-- Python d[k] = v: replace the binding in place if the key exists,
otherwise append it. -/
def dictSet (d : PyDict) (k : String) (v : Json) : PyDict :=
  if (d.find? (fun p => p.1 == k)).isSome then
    d.map (fun p => if p.1 = k then (k, v) else p)
  else d ++ [(k, v)]

/-- Python d[k] read: the binding of the key, if any. -/
def dictGet (d : PyDict) (k : String) : Option Json :=
  (d.find? (fun p => p.1 == k)).map (fun p => p.2)

/-- Python d.update(m): assign every binding of m into d, in order. -/
def dictUpdate (d m : PyDict) : PyDict :=
  m.foldl (fun acc p => dictSet acc p.1 p.2) d

/-- Python d.get(k, dflt). -/
def jsonGet (kvs : PyDict) (k : String) (dflt : Json) : Json :=
  (dictGet kvs k).getD dflt

/-- Python truthiness of a JSON-like value. -/
def pyTruthy : Json → Bool
  | .null => false
  | .bool b => b
  | .num n => n != 0
  | .str s => !s.data.isEmpty
  | .arr xs => !xs.isEmpty
  | .obj kvs => !kvs.isEmpty

/-- The Python exception classes the adapters can raise past a given point. -/
inductive PyExc where
  | indexError : PyExc
  | valueError : PyExc
  | typeError : PyExc
  | attributeError : PyExc
deriving DecidableEq

/-- The two package-manager adapter classes. -/
inductive Backend where
  | apt : Backend
  | dnf : Backend
deriving DecidableEq

/-- get_package_manager from package_managers/__init__.py: lowercase the
detected distribution id (distro.id().lower()) and pick the adapter, or
none for an unsupported distribution. -/
def get_package_manager (distro_id : String) : Option Backend :=
  let distribution := pyLower distro_id
  if distribution = "ubuntu" ∨ distribution = "debian" then some Backend.apt
  else if distribution = "fedora" then some Backend.dnf
  else none

namespace AptPackageManager

/-- AptPackageManager._get_package_details: parse the captured stdout of
apt-cache show into a details dictionary.  The argument none models
CalledProcessError from the subprocess call (run with check=True), for which
the source returns an empty dictionary. -/
def _get_package_details (toolResult : Option String) : PyDict :=
  match toolResult with
  | none => []
  | some stdout =>
    (pySplitOn (pyStrip stdout) "\n").foldl (fun details line =>
      if line = "" ∨ ¬(pyContains line ": ") then details
      else
        match pySplitOnceRest line ": " with
        | none => details
        | some (key0, value) =>
          let key := pyReplace (pyLower key0) "-" "_"
          if key = "size" then
            match pyToIntOpt value with
            | some n => dictSet details "size_bytes" (.num n)
            | none => dictSet details "size" (.str value)
          else if key = "homepage" then dictSet details "website" (.str value)
          else if key = "maintainer" ∨ key = "section" ∨ key = "priority" ∨
              key = "description" then dictSet details key (.str value)
          else details) []

/-- AptPackageManager._is_security_update: true when the word security
appears case-insensitively in the captured stdout of apt-cache policy;
false when the subprocess call (run with check=True) fails. -/
def _is_security_update (toolResult : Option String) : Bool :=
  match toolResult with
  | none => false
  | some stdout => pyContains (pyLower stdout) "security"

/-- The record constructed by one successful iteration of the line loop of
AptPackageManager.get_available_updates: the base fields extracted from the
whitespace tokens and the upgradable-from tail, enriched with the detail
lookup when it is non-empty.  The detailsOut and policyOut oracles give the
captured stdout of apt-cache show and apt-cache policy per package name
(none = CalledProcessError). -/
def aptRecord (detailsOut policyOut : String → Option String)
    (parts : List String) (tail1 : String) : PyDict :=
  let package_info := pySplitOn (parts.getD 0 "") "/"
  let package_name := package_info.getD 0 ""
  let version_info : String := ⟨pyRstripData ']' tail1.data⟩
  let new_version := parts.getD 1 ""
  let pkg_info := _get_package_details (detailsOut package_name)
  let update_info : PyDict := [
    ("name", .str package_name),
    ("version", .str new_version),
    ("current_version", .str version_info),
    ("architecture", .str (if parts.length > 2 then parts.getD 2 "" else "")),
    ("is_security_update", .bool (_is_security_update (policyOut package_name)))]
  if ¬pkg_info.isEmpty then dictUpdate update_info pkg_info else update_info

/-- The body of the per-line try block of
AptPackageManager.get_available_updates.  ok none models the continue taken
for lines with fewer than 4 whitespace tokens; error indexError models the
IndexError raised by line.split(upgradable-from marker)[1] when the marker
is absent. -/
def parseLineBody (detailsOut policyOut : String → Option String)
    (line : String) : Except PyExc (Option PyDict) :=
  let parts := pySplitWs line
  if parts.length < 4 then .ok none
  else
    match (pySplitOn line "[upgradable from: ").get? 1 with
    | none => .error .indexError
    | some tail1 => .ok (some (aptRecord detailsOut policyOut parts tail1))

/-- One iteration of the line loop of get_available_updates: the blank-line
continue, then the try block with except (IndexError, ValueError) skipping
the single line.  The outer Option is none exactly when an exception would
escape the handler (the safety theorem shows none ever does). -/
def processLine (detailsOut policyOut : String → Option String)
    (line : String) : Option (Option PyDict) :=
  if pyStrip line = "" then some none
  else
    match parseLineBody detailsOut policyOut line with
    | .ok r => some r
    | .error .indexError => some none
    | .error .valueError => some none
    | .error _ => none

/-- The loop of get_available_updates over a list of lines, in order. -/
def scanLines (detailsOut policyOut : String → Option String)
    (lines : List String) : List PyDict :=
  lines.filterMap (fun line => (processLine detailsOut policyOut line).join)

/-- AptPackageManager.get_available_updates.  listResult is the captured
stdout of apt list --upgradable (none = CalledProcessError of the check=True
run, for which the source returns an empty list).  The first line of the
stripped output is always skipped as the header. -/
def get_available_updates (listResult : Option String)
    (detailsOut policyOut : String → Option String) : List PyDict :=
  match listResult with
  | none => []
  | some stdout =>
    scanLines detailsOut policyOut ((pySplitOn (pyStrip stdout) "\n").drop 1)

end AptPackageManager

namespace DnfPackageManager

/-- DnfPackageManager._get_package_details: parse the captured stdout of
dnf info into a details dictionary.  none models CalledProcessError of the
check=True run, for which the source returns an empty dictionary. -/
def _get_package_details (toolResult : Option String) : PyDict :=
  match toolResult with
  | none => []
  | some stdout =>
    (pySplitOn (pyStrip stdout) "\n").foldl (fun details line =>
      if pyStrip line = "" then details
      else if pyContains line ":" then
        match pySplitOnceRest line ":" with
        | none => details
        | some (part0, part1) =>
          let key := pyReplace (pyLower (pyStrip part0)) " " "_"
          let value := pyStrip part1
          if key = "size" then dictSet details "size" (.str value)
          else if key = "url" then dictSet details "website" (.str value)
          else if key = "license" ∨ key = "summary" ∨ key = "description" then
            dictSet details key (.str value)
          else details
      else details) []

/-- DnfPackageManager._is_security_update: the advisory listing command runs
without check=True, so its captured stdout is always consulted and the
except CalledProcessError branch of the source is unreachable; the result is
the Python substring test package_name in stdout. -/
def _is_security_update (package_name : String) (advisoryStdout : String) : Bool :=
  pyContains advisoryStdout package_name

/-- The record built from one parsed JSON entry with key-value list kvs and
name value nameS: the six base fields from the structured entry, the detail
enrichment when non-empty, then the security flag assignment.  detailsOut
gives the dnf info stdout per package name (none = CalledProcessError),
advisoryOut the dnf updateinfo list security stdout per package name. -/
def dnfRecord (detailsOut : String → Option String)
    (advisoryOut : String → String) (kvs : PyDict) (nameS : String) : PyDict :=
  let update_info : PyDict := [
    ("name", jsonGet kvs "name" (.str "")),
    ("version", jsonGet kvs "version" (.str "")),
    ("release", jsonGet kvs "release" (.str "")),
    ("architecture", jsonGet kvs "arch" (.str "")),
    ("repository", jsonGet kvs "repo" (.str "")),
    ("current_version", jsonGet kvs "installed_version" (.str ""))]
  let pkg_info := _get_package_details (detailsOut nameS)
  let withDetails := if ¬pkg_info.isEmpty then dictUpdate update_info pkg_info
                     else update_info
  dictSet withDetails "is_security_update"
    (.bool (_is_security_update nameS (advisoryOut nameS)))

/-- One iteration of the update loop of get_available_updates over one
parsed JSON entry.  pkg.get needs a dictionary (otherwise AttributeError);
a non-string name value would reach the subprocess argument vector of the
detail lookup and raise TypeError there. -/
def buildRecord (detailsOut : String → Option String)
    (advisoryOut : String → String) (pkg : Json) : Except PyExc PyDict :=
  match pkg with
  | .obj kvs =>
    match jsonGet kvs "name" (.str "") with
    | .str nameS => .ok (dnfRecord detailsOut advisoryOut kvs nameS)
    | _ => .error .typeError
  | _ => .error .attributeError

/-- DnfPackageManager.get_available_updates.  rc is the exit status of
dnf check-update; parsed is the json.loads result on its stdout (none =
JSONDecodeError, which the source catches and turns into an empty list).
Iterating a non-list updates value is approximated by TypeError; no claim
depends on that corner. -/
def get_available_updates (rc : Int) (parsed : Option Json)
    (detailsOut : String → Option String) (advisoryOut : String → String) :
    Except PyExc (List PyDict) :=
  if rc ≠ 0 ∧ rc ≠ 100 then .ok []
  else
    match parsed with
    | none => .ok []
    | some data =>
      match data with
      | .obj kvs =>
        match jsonGet kvs "updates" (.arr []) with
        | .arr pkgs => pkgs.mapM (buildRecord detailsOut advisoryOut)
        | _ => .error .typeError
      | _ => .error .attributeError

end DnfPackageManager

/-- Python a or b where a is an optional CLI override and b the config
value: an absent or empty override falls through to the config value. -/
def pyOrStr (a : Option String) (b : String) : String :=
  match a with
  | some s => if s ≠ "" then s else b
  | none => b

/-- The output_data dictionary built in cli.main: summary counts are
computed from the updates list, counting entries whose is_security_update
value is truthy (update.get with default False). -/
def output_data (timestamp hostname : String) (distribution : PyDict)
    (updates : List PyDict) : PyDict :=
  [("timestamp", .str timestamp),
   ("hostname", .str hostname),
   ("distribution", .obj distribution),
   ("updates", .arr (updates.map Json.obj)),
   ("total_updates", .num (updates.length : Int)),
   ("security_updates", .num
     (((updates.filter (fun u => pyTruthy (jsonGet u "is_security_update" (.bool false)))).length : Int)))]

/-- Observable outcome of one cli.main run. -/
structure CliOutcome where
  exitCode : Nat
  reportProduced : Bool
  wroteStdout : Bool
  networkAttempted : Bool
deriving DecidableEq, Repr

/-- The control flow of cli.main after argument parsing and config loading:
backend selection, report construction, then delivery.  transport models the
send_to_api HTTP POST: none is a requests exception, some code the HTTP
status; the source treats exactly status 200 as success. -/
def mainFlow (backend : Option Backend) (sendFlag : Bool)
    (argsApiUrl argsApiKey : Option String) (cfgUrl cfgKey : String)
    (transport : Option Nat) : CliOutcome :=
  match backend with
  | none => ⟨1, false, false, false⟩
  | some _ =>
    if sendFlag then
      let api_url := pyOrStr argsApiUrl cfgUrl
      let api_key := pyOrStr argsApiKey cfgKey
      if api_url = "" then ⟨1, true, false, false⟩
      else if api_key = "" then ⟨1, true, false, false⟩
      else
        if transport = some 200 then ⟨0, true, false, true⟩
        else ⟨1, true, false, true⟩
    else ⟨0, true, true, false⟩

/-! ### Dictionary lemmas -/

theorem dictGet_nil (k : String) : dictGet [] k = none := rfl

theorem dictGet_cons (p : String × Json) (d : PyDict) (k : String) :
    dictGet (p :: d) k = if p.1 = k then some p.2 else dictGet d k := by
  by_cases h : p.1 = k
  · simp [dictGet, List.find?_cons_of_pos, h]
  · have hb : (p.1 == k) = false := by simp [h]
    simp [dictGet, List.find?_cons_of_neg, hb, h]

theorem dictGet_map_set_ne (d : PyDict) (k k' : String) (v : Json) (h : k' ≠ k) :
    dictGet (d.map (fun p => if p.1 = k then (k, v) else p)) k' = dictGet d k' := by
  induction d with
  | nil => rfl
  | cons q d ih =>
    simp only [List.map_cons, dictGet_cons]
    by_cases hq : q.1 = k
    · rw [if_pos hq]
      rw [if_neg (show ¬((k, v).1 = k') from fun he => h he.symm)]
      rw [if_neg (fun he : q.1 = k' => h (he.symm.trans hq))]
      exact ih
    · rw [if_neg hq]
      by_cases hq' : q.1 = k'
      · rw [if_pos hq', if_pos hq']
      · rw [if_neg hq', if_neg hq']
        exact ih

theorem dictGet_append_ne (d : PyDict) (k k' : String) (v : Json) (h : k' ≠ k) :
    dictGet (d ++ [(k, v)]) k' = dictGet d k' := by
  induction d with
  | nil =>
    simp only [List.nil_append, dictGet_cons, dictGet_nil]
    rw [if_neg (fun he => h he.symm)]
  | cons q d ih =>
    simp only [List.cons_append, dictGet_cons]
    by_cases hq : q.1 = k'
    · rw [if_pos hq, if_pos hq]
    · rw [if_neg hq, if_neg hq]
      exact ih

theorem dictGet_dictSet_ne (d : PyDict) (k k' : String) (v : Json) (h : k' ≠ k) :
    dictGet (dictSet d k v) k' = dictGet d k' := by
  unfold dictSet
  by_cases hf : (List.find? (fun p => p.1 == k) d).isSome
  · rw [if_pos hf]
    exact dictGet_map_set_ne d k k' v h
  · rw [if_neg hf]
    exact dictGet_append_ne d k k' v h

theorem dictGet_map_set_self (d : PyDict) (k : String) (v : Json)
    (hf : (List.find? (fun p => p.1 == k) d).isSome = true) :
    dictGet (d.map (fun p => if p.1 = k then (k, v) else p)) k = some v := by
  induction d with
  | nil => simp at hf
  | cons q d ih =>
    simp only [List.map_cons, dictGet_cons]
    by_cases hq : q.1 = k
    · rw [if_pos hq]
      rw [if_pos (show (k, v).1 = k from rfl)]
    · rw [if_neg hq, if_neg hq]
      refine ih ?_
      rwa [List.find?_cons_of_neg _ (by simp [hq])] at hf

theorem dictGet_append_self (d : PyDict) (k : String) (v : Json)
    (hf : List.find? (fun p => p.1 == k) d = none) :
    dictGet (d ++ [(k, v)]) k = some v := by
  induction d with
  | nil => simp [dictGet_cons]
  | cons q d ih =>
    rw [List.find?_cons] at hf
    cases hb : (q.1 == k) with
    | true => simp [hb] at hf
    | false =>
      simp only [hb] at hf
      simp only [List.cons_append, dictGet_cons]
      rw [if_neg (by simpa using hb)]
      exact ih hf

theorem dictGet_dictSet_self (d : PyDict) (k : String) (v : Json) :
    dictGet (dictSet d k v) k = some v := by
  unfold dictSet
  by_cases hf : (List.find? (fun p => p.1 == k) d).isSome
  · rw [if_pos hf]
    exact dictGet_map_set_self d k v hf
  · rw [if_neg hf]
    exact dictGet_append_self d k v (Option.not_isSome_iff_eq_none.mp hf)

theorem mem_dictSet (d : PyDict) (k : String) (v : Json) (p : String × Json)
    (hp : p ∈ dictSet d k v) : p ∈ d ∨ p = (k, v) := by
  unfold dictSet at hp
  by_cases hf : (List.find? (fun p => p.1 == k) d).isSome
  · rw [if_pos hf] at hp
    obtain ⟨q, hq, hpq⟩ := List.mem_map.mp hp
    by_cases hqk : q.1 = k
    · right
      rw [← hpq]
      simp [hqk]
    · left
      rw [← hpq]
      simpa [hqk] using hq
  · rw [if_neg hf] at hp
    rcases List.mem_append.mp hp with h | h
    · exact Or.inl h
    · exact Or.inr (List.mem_singleton.mp h)

theorem dictGet_dictUpdate_ne (m : PyDict) (k : String)
    (h : ∀ p ∈ m, p.1 ≠ k) :
    ∀ d : PyDict, dictGet (dictUpdate d m) k = dictGet d k := by
  induction m with
  | nil => intro d; rfl
  | cons q m ih =>
    intro d
    have hstep : dictUpdate d (q :: m) = dictUpdate (dictSet d q.1 q.2) m := rfl
    rw [hstep, ih (fun p hp => h p (List.mem_cons_of_mem q hp))]
    exact dictGet_dictSet_ne d q.1 k q.2
      (fun he => h q (List.mem_cons_self q m) he.symm)

/-! ### Substring lemmas -/

theorem listPrefixOf_iff (xs : List Char) :
    ∀ ys : List Char, listPrefixOf xs ys = true ↔ ∃ r, ys = xs ++ r := by
  induction xs with
  | nil =>
    intro ys
    simp [listPrefixOf]
  | cons x xs ih =>
    intro ys
    cases ys with
    | nil =>
      simp only [listPrefixOf]
      constructor
      · intro h; exact absurd h (by simp)
      · rintro ⟨r, hr⟩; simp at hr
    | cons y ys =>
      simp only [listPrefixOf, Bool.and_eq_true, beq_iff_eq]
      constructor
      · rintro ⟨hxy, hp⟩
        obtain ⟨r, hr⟩ := (ih ys).mp hp
        exact ⟨r, by simp [hxy, hr]⟩
      · rintro ⟨r, hr⟩
        simp only [List.cons_append] at hr
        injection hr with h1 h2
        exact ⟨h1.symm, (ih ys).mpr ⟨r, h2⟩⟩

theorem listInfixOf_iff (xs : List Char) :
    ∀ ys : List Char, listInfixOf xs ys = true ↔ ∃ l r, ys = l ++ (xs ++ r) := by
  intro ys
  induction ys with
  | nil =>
    simp only [listInfixOf, listPrefixOf_iff]
    constructor
    · rintro ⟨r, hr⟩; exact ⟨[], r, by simp [← hr]⟩
    · rintro ⟨l, r, hr⟩
      rcases List.append_eq_nil.mp hr.symm with ⟨-, h2⟩
      exact ⟨r, h2.symm⟩
  | cons y ys ih =>
    simp only [listInfixOf, Bool.or_eq_true, listPrefixOf_iff, ih]
    constructor
    · rintro (⟨r, hr⟩ | ⟨l, r, hr⟩)
      · exact ⟨[], r, by simpa using hr⟩
      · exact ⟨y :: l, r, by simp [hr]⟩
    · rintro ⟨l, r, hr⟩
      cases l with
      | nil => exact Or.inl ⟨r, by simpa using hr⟩
      | cons a l =>
        simp only [List.cons_append] at hr
        injection hr with h1 h2
        exact Or.inr ⟨l, r, h2⟩

theorem listInfixOf_nil_left (ys : List Char) : listInfixOf [] ys = true :=
  (listInfixOf_iff [] ys).mpr ⟨[], ys, by simp⟩

theorem pyContains_empty (s : String) : pyContains s "" = true :=
  listInfixOf_nil_left s.data

/-! ### Non-emptiness of whitespace-split tokens -/

theorem pySplitWsData_ne_nil :
    ∀ l : List Char, ∀ w ∈ pySplitWsData l, w ≠ [] := by
  intro l
  induction l with
  | nil => intro w hw; simp [pySplitWsData] at hw
  | cons c rest ih =>
    intro w hw
    cases rest with
    | nil =>
      simp only [pySplitWsData] at hw
      by_cases hc : pyIsSpace c
      · simp [hc] at hw
      · simp [hc] at hw
        simp [hw]
    | cons d rest' =>
      simp only [pySplitWsData] at hw
      by_cases hc : pyIsSpace c
      · rw [if_pos hc] at hw
        exact ih w hw
      · rw [if_neg hc] at hw
        by_cases hd : pyIsSpace d
        · rw [if_pos hd] at hw
          rcases List.mem_cons.mp hw with h | h
          · simp [h]
          · exact ih w h
        · rw [if_neg hd] at hw
          cases hm : pySplitWsData (d :: rest') with
          | nil => rw [hm] at hw; simp at hw; simp [hw]
          | cons w0 ws =>
            rw [hm] at hw
            rcases List.mem_cons.mp hw with h | h
            · simp [h]
            · exact ih w (hm ▸ List.mem_cons_of_mem w0 h)

theorem pySplitWs_ne_empty (s : String) (w : String) (hw : w ∈ pySplitWs s) :
    w ≠ "" := by
  obtain ⟨l, hl, hlw⟩ := List.mem_map.mp hw
  intro he
  have : l = [] := by
    have := congrArg String.data (hlw.trans he)
    simpa using this
  exact pySplitWsData_ne_nil s.data l hl this

/-! ### Detail-lookup key sets -/

/-- Every key the APT detail parser can ever emit. -/
def aptDetailKeys : List String :=
  ["size_bytes", "size", "website", "maintainer", "section", "priority", "description"]

/-- Every key the DNF detail parser can ever emit. -/
def dnfDetailKeys : List String :=
  ["size", "website", "license", "summary", "description"]

/-- The base fields of an update record, set by the primary listing parse. -/
def baseFieldKeys : List String :=
  ["name", "version", "current_version", "architecture", "is_security_update"]

theorem foldl_key_invariant {α : Type} {K : List String}
    (step : PyDict → α → PyDict)
    (hstep : ∀ acc x p, p ∈ step acc x → p ∈ acc ∨ p.1 ∈ K) :
    ∀ (l : List α) (acc : PyDict), (∀ p ∈ acc, p.1 ∈ K) →
      ∀ p ∈ l.foldl step acc, p.1 ∈ K := by
  intro l
  induction l with
  | nil => intro acc hacc p hp; exact hacc p hp
  | cons x l ih =>
    intro acc hacc p hp
    refine ih (step acc x) ?_ p hp
    intro q hq
    rcases hstep acc x q hq with h | h
    · exact hacc q h
    · exact h

theorem apt_details_keys (out : Option String) :
    ∀ p ∈ AptPackageManager._get_package_details out, p.1 ∈ aptDetailKeys := by
  cases out with
  | none => intro p hp; simp [AptPackageManager._get_package_details] at hp
  | some stdout =>
    intro p hp
    refine foldl_key_invariant _ ?_ _ [] (by simp) p hp
    intro acc line q hq
    dsimp only at hq
    by_cases h1 : line = "" ∨ ¬(pyContains line ": ")
    · rw [if_pos h1] at hq
      exact Or.inl hq
    · rw [if_neg h1] at hq
      cases hsp : pySplitOnceRest line ": " with
      | none => rw [hsp] at hq; exact Or.inl hq
      | some kv =>
        rw [hsp] at hq
        obtain ⟨key0, value⟩ := kv
        dsimp only at hq
        by_cases h2 : pyReplace (pyLower key0) "-" "_" = "size"
        · rw [if_pos h2] at hq
          cases hn : pyToIntOpt value with
          | some n =>
            rw [hn] at hq
            rcases mem_dictSet _ _ _ _ hq with h | h
            · exact Or.inl h
            · right; rw [h]; simp [aptDetailKeys]
          | none =>
            rw [hn] at hq
            rcases mem_dictSet _ _ _ _ hq with h | h
            · exact Or.inl h
            · right; rw [h]; simp [aptDetailKeys]
        · rw [if_neg h2] at hq
          by_cases h3 : pyReplace (pyLower key0) "-" "_" = "homepage"
          · rw [if_pos h3] at hq
            rcases mem_dictSet _ _ _ _ hq with h | h
            · exact Or.inl h
            · right; rw [h]; simp [aptDetailKeys]
          · rw [if_neg h3] at hq
            by_cases h4 : pyReplace (pyLower key0) "-" "_" = "maintainer" ∨
                pyReplace (pyLower key0) "-" "_" = "section" ∨
                pyReplace (pyLower key0) "-" "_" = "priority" ∨
                pyReplace (pyLower key0) "-" "_" = "description"
            · rw [if_pos h4] at hq
              rcases mem_dictSet _ _ _ _ hq with h | h
              · exact Or.inl h
              · right
                rw [h]
                rcases h4 with h4 | h4 | h4 | h4 <;> rw [h4] <;> simp [aptDetailKeys]
            · rw [if_neg h4] at hq
              exact Or.inl hq

theorem dnf_details_keys (out : Option String) :
    ∀ p ∈ DnfPackageManager._get_package_details out, p.1 ∈ dnfDetailKeys := by
  cases out with
  | none => intro p hp; simp [DnfPackageManager._get_package_details] at hp
  | some stdout =>
    intro p hp
    refine foldl_key_invariant _ ?_ _ [] (by simp) p hp
    intro acc line q hq
    dsimp only at hq
    by_cases h1 : pyStrip line = ""
    · rw [if_pos h1] at hq
      exact Or.inl hq
    · rw [if_neg h1] at hq
      by_cases h1b : pyContains line ":" = true
      · rw [if_pos h1b] at hq
        cases hsp : pySplitOnceRest line ":" with
        | none => rw [hsp] at hq; exact Or.inl hq
        | some kv =>
          rw [hsp] at hq
          obtain ⟨part0, part1⟩ := kv
          dsimp only at hq
          by_cases h2 : pyReplace (pyLower (pyStrip part0)) " " "_" = "size"
          · rw [if_pos h2] at hq
            rcases mem_dictSet _ _ _ _ hq with h | h
            · exact Or.inl h
            · right; rw [h]; simp [dnfDetailKeys]
          · rw [if_neg h2] at hq
            by_cases h3 : pyReplace (pyLower (pyStrip part0)) " " "_" = "url"
            · rw [if_pos h3] at hq
              rcases mem_dictSet _ _ _ _ hq with h | h
              · exact Or.inl h
              · right; rw [h]; simp [dnfDetailKeys]
            · rw [if_neg h3] at hq
              by_cases h4 : pyReplace (pyLower (pyStrip part0)) " " "_" = "license" ∨
                  pyReplace (pyLower (pyStrip part0)) " " "_" = "summary" ∨
                  pyReplace (pyLower (pyStrip part0)) " " "_" = "description"
              · rw [if_pos h4] at hq
                rcases mem_dictSet _ _ _ _ hq with h | h
                · exact Or.inl h
                · right
                  rw [h]
                  rcases h4 with h4 | h4 | h4 <;> rw [h4] <;> simp [dnfDetailKeys]
              · rw [if_neg h4] at hq
                exact Or.inl hq
      · rw [if_neg h1b] at hq
        exact Or.inl hq

theorem apt_dnf_keys_disjoint :
    ∀ a ∈ aptDetailKeys ++ dnfDetailKeys, ∀ b ∈ baseFieldKeys, a ≠ b := by
  decide

/-- Merging the APT detail map never changes a base field. -/
theorem apt_update_frame (rec : PyDict) (out : Option String) (k : String)
    (hk : k ∈ baseFieldKeys) :
    dictGet (dictUpdate rec (AptPackageManager._get_package_details out)) k =
      dictGet rec k := by
  refine dictGet_dictUpdate_ne _ k ?_ rec
  intro p hp
  exact apt_dnf_keys_disjoint p.1
    (List.mem_append.mpr (Or.inl (apt_details_keys out p hp))) k hk

/-- Merging the DNF detail map never changes a base field. -/
theorem dnf_update_frame (rec : PyDict) (out : Option String) (k : String)
    (hk : k ∈ baseFieldKeys) :
    dictGet (dictUpdate rec (DnfPackageManager._get_package_details out)) k =
      dictGet rec k := by
  refine dictGet_dictUpdate_ne _ k ?_ rec
  intro p hp
  exact apt_dnf_keys_disjoint p.1
    (List.mem_append.mpr (Or.inr (dnf_details_keys out p hp))) k hk

/-! ### Inversion and field lemmas for the two record builders -/

theorem aptRecord_base_fields (d p : String → Option String)
    (parts : List String) (tail1 : String) :
    dictGet (AptPackageManager.aptRecord d p parts tail1) "name" =
      some (.str ((pySplitOn (parts.getD 0 "") "/").getD 0 "")) ∧
    dictGet (AptPackageManager.aptRecord d p parts tail1) "version" =
      some (.str (parts.getD 1 "")) ∧
    dictGet (AptPackageManager.aptRecord d p parts tail1) "current_version" =
      some (.str ⟨pyRstripData ']' tail1.data⟩) ∧
    dictGet (AptPackageManager.aptRecord d p parts tail1) "architecture" =
      some (.str (if parts.length > 2 then parts.getD 2 "" else "")) ∧
    dictGet (AptPackageManager.aptRecord d p parts tail1) "is_security_update" =
      some (.bool (AptPackageManager._is_security_update
        (p ((pySplitOn (parts.getD 0 "") "/").getD 0 "")))) := by
  simp only [AptPackageManager.aptRecord]
  by_cases hemp : ¬(AptPackageManager._get_package_details
      (d ((pySplitOn (parts.getD 0 "") "/").getD 0 ""))).isEmpty = true
  · rw [if_pos hemp]
    refine ⟨?_, ?_, ?_, ?_, ?_⟩ <;>
      rw [apt_update_frame _ _ _ (by simp [baseFieldKeys])] <;> rfl
  · rw [if_neg hemp]
    exact ⟨rfl, rfl, rfl, rfl, rfl⟩

theorem processLine_some_inv (d p : String → Option String) (line : String)
    (r : PyDict) (h : AptPackageManager.processLine d p line = some (some r)) :
    ∃ tail1 : String,
      ¬(pySplitWs line).length < 4 ∧
      (pySplitOn line "[upgradable from: ").get? 1 = some tail1 ∧
      r = AptPackageManager.aptRecord d p (pySplitWs line) tail1 := by
  unfold AptPackageManager.processLine at h
  by_cases hblank : pyStrip line = ""
  · rw [if_pos hblank] at h
    simp at h
  · rw [if_neg hblank] at h
    simp only [AptPackageManager.parseLineBody] at h
    by_cases hlen : (pySplitWs line).length < 4
    · rw [if_pos hlen] at h
      simp at h
    · rw [if_neg hlen] at h
      cases hm : (pySplitOn line "[upgradable from: ").get? 1 with
      | none =>
        rw [hm] at h
        simp at h
      | some tail1 =>
        rw [hm] at h
        simp only [Option.some.injEq] at h
        exact ⟨tail1, hlen, rfl, h.symm⟩

theorem dnfRecord_fields (dd : String → Option String) (s : String → String)
    (kvs : PyDict) (nameS : String) :
    dictGet (DnfPackageManager.dnfRecord dd s kvs nameS) "name" =
      some (jsonGet kvs "name" (.str "")) ∧
    dictGet (DnfPackageManager.dnfRecord dd s kvs nameS) "version" =
      some (jsonGet kvs "version" (.str "")) ∧
    dictGet (DnfPackageManager.dnfRecord dd s kvs nameS) "is_security_update" =
      some (.bool (DnfPackageManager._is_security_update nameS (s nameS))) := by
  simp only [DnfPackageManager.dnfRecord]
  refine ⟨?_, ?_, ?_⟩
  · rw [dictGet_dictSet_ne _ _ _ _ (by decide)]
    by_cases hemp : ¬(DnfPackageManager._get_package_details (dd nameS)).isEmpty = true
    · rw [if_pos hemp, dnf_update_frame _ _ _ (by simp [baseFieldKeys])]
      rfl
    · rw [if_neg hemp]
      rfl
  · rw [dictGet_dictSet_ne _ _ _ _ (by decide)]
    by_cases hemp : ¬(DnfPackageManager._get_package_details (dd nameS)).isEmpty = true
    · rw [if_pos hemp, dnf_update_frame _ _ _ (by simp [baseFieldKeys])]
      rfl
    · rw [if_neg hemp]
      rfl
  · exact dictGet_dictSet_self _ _ _

theorem buildRecord_ok_inv (dd : String → Option String) (s : String → String)
    (pkg : Json) (r : PyDict) (h : DnfPackageManager.buildRecord dd s pkg = .ok r) :
    ∃ (kvs : PyDict) (nameS : String),
      pkg = .obj kvs ∧ jsonGet kvs "name" (.str "") = .str nameS ∧
      r = DnfPackageManager.dnfRecord dd s kvs nameS := by
  cases pkg with
  | null => exact Except.noConfusion h
  | bool b => exact Except.noConfusion h
  | num n => exact Except.noConfusion h
  | str s2 => exact Except.noConfusion h
  | arr xs => exact Except.noConfusion h
  | obj kvs =>
    cases hname : jsonGet kvs "name" (.str "") with
    | str nameS =>
      simp only [DnfPackageManager.buildRecord, hname, Except.ok.injEq] at h
      exact ⟨kvs, nameS, rfl, hname, h.symm⟩
    | null =>
      simp only [DnfPackageManager.buildRecord, hname] at h
      exact Except.noConfusion h
    | bool b =>
      simp only [DnfPackageManager.buildRecord, hname] at h
      exact Except.noConfusion h
    | num n =>
      simp only [DnfPackageManager.buildRecord, hname] at h
      exact Except.noConfusion h
    | arr xs =>
      simp only [DnfPackageManager.buildRecord, hname] at h
      exact Except.noConfusion h
    | obj kvs2 =>
      simp only [DnfPackageManager.buildRecord, hname] at h
      exact Except.noConfusion h

/-! ### Claim theorems -/

/-- C1: over lowercase detected distribution ids (the detector lowercases its
result), backend selection returns the APT adapter iff the id is ubuntu or
debian and the DNF adapter iff the id is fedora; for every other id it
returns no backend and the run exits with code 1 without producing a
report. -/
theorem C1_backend_selection (id : String) (hlow : pyLower id = id) :
    (get_package_manager id = some Backend.apt ↔ (id = "ubuntu" ∨ id = "debian")) ∧
    (get_package_manager id = some Backend.dnf ↔ id = "fedora") ∧
    (get_package_manager id = none →
      ∀ (sendFlag : Bool) (aUrl aKey : Option String) (cUrl cKey : String)
        (transport : Option Nat),
        mainFlow (get_package_manager id) sendFlag aUrl aKey cUrl cKey transport =
          ⟨1, false, false, false⟩) := by
  have hdef : get_package_manager id =
      (if id = "ubuntu" ∨ id = "debian" then some Backend.apt
       else if id = "fedora" then some Backend.dnf else none) := by
    simp only [get_package_manager, hlow]
  refine ⟨?_, ?_, ?_⟩
  · rw [hdef]
    by_cases h : id = "ubuntu" ∨ id = "debian"
    · simp [h]
    · rw [if_neg h]
      by_cases h2 : id = "fedora" <;> simp [h, h2]
  · rw [hdef]
    by_cases h : id = "ubuntu" ∨ id = "debian"
    · rw [if_pos h]
      constructor
      · intro hcontra; simp at hcontra
      · intro hf
        rcases h with h | h <;> rw [h] at hf <;> exact absurd hf (by decide)
    · rw [if_neg h]
      by_cases h2 : id = "fedora" <;> simp [h, h2]
  · intro hnone sendFlag aUrl aKey cUrl cKey transport
    rw [hnone]
    rfl

/-- C1 witness: the theorem applied to the concrete unsupported id arch. -/
theorem C1_backend_selection_witness :
    mainFlow (get_package_manager "arch") false none none "" "" none =
      ⟨1, false, false, false⟩ :=
  (C1_backend_selection "arch" rfl).2.2 rfl false none none "" "" none

/-- C8: with a backend selected and delivery requested, an empty resolved
API URL or key exits with code 1 before any network call; a transport
failure (non-200 status or transport error) exits with code 1 after the
network call; without delivery the report goes to stdout and the process
exits with code 0. -/
theorem C8_delivery_exit_codes (b : Backend) (aUrl aKey : Option String)
    (cUrl cKey : String) (transport : Option Nat) :
    (pyOrStr aUrl cUrl = "" ∨ pyOrStr aKey cKey = "" →
      mainFlow (some b) true aUrl aKey cUrl cKey transport =
        ⟨1, true, false, false⟩) ∧
    (pyOrStr aUrl cUrl ≠ "" → pyOrStr aKey cKey ≠ "" → transport ≠ some 200 →
      mainFlow (some b) true aUrl aKey cUrl cKey transport =
        ⟨1, true, false, true⟩) ∧
    mainFlow (some b) false aUrl aKey cUrl cKey transport =
      ⟨0, true, true, false⟩ := by
  refine ⟨?_, ?_, rfl⟩
  · rintro (h | h)
    · simp [mainFlow, h]
    · by_cases hu : pyOrStr aUrl cUrl = "" <;> simp [mainFlow, hu, h]
  · intro hu hk ht
    simp [mainFlow, hu, hk, ht]

/-- C8 witness: the theorem applied with an empty URL override, a non-empty
key, and no transport; the run exits 1 with no network call attempted. -/
theorem C8_delivery_exit_codes_witness :
    mainFlow (some Backend.apt) true (some "") (some "k") "" "" none =
      ⟨1, true, false, false⟩ :=
  (C8_delivery_exit_codes Backend.apt (some "") (some "k") "" "" none).1
    (Or.inl rfl)

/-- C6: the DNF update listing treats exactly exit statuses 0 and 100 as
success: any other exit status yields the empty list, malformed JSON output
yields the empty list without an exception escaping the adapter, and for
exit status 0 or 100 with a well-formed updates array the per-entry records
are built. -/
theorem C6_dnf_exit_statuses (d : String → Option String) (s : String → String) :
    (∀ (rc : Int) (parsed : Option Json), rc ≠ 0 → rc ≠ 100 →
      DnfPackageManager.get_available_updates rc parsed d s = .ok []) ∧
    (∀ rc : Int, DnfPackageManager.get_available_updates rc none d s = .ok []) ∧
    (∀ (rc : Int) (pkgs : List Json), rc = 0 ∨ rc = 100 →
      DnfPackageManager.get_available_updates rc
        (some (.obj [("updates", Json.arr pkgs)])) d s =
        pkgs.mapM (DnfPackageManager.buildRecord d s)) := by
  refine ⟨?_, ?_, ?_⟩
  · intro rc parsed h0 h100
    unfold DnfPackageManager.get_available_updates
    rw [if_pos ⟨h0, h100⟩]
  · intro rc
    unfold DnfPackageManager.get_available_updates
    by_cases h : rc ≠ 0 ∧ rc ≠ 100
    · rw [if_pos h]
    · rw [if_neg h]
  · intro rc pkgs h
    have hcond : ¬(rc ≠ 0 ∧ rc ≠ 100) := by
      rcases h with h | h <;> simp [h]
    unfold DnfPackageManager.get_available_updates
    rw [if_neg hcond]
    rfl

/-- C6 witness: the theorem applied at exit status 2 (any parsed output) and
at exit status 100 with malformed JSON; both runs return the empty list. -/
theorem C6_dnf_exit_statuses_witness :
    DnfPackageManager.get_available_updates 2 (some (.obj []))
      (fun _ => none) (fun _ => "") = .ok [] ∧
    DnfPackageManager.get_available_updates 100 none
      (fun _ => none) (fun _ => "") = .ok [] :=
  ⟨(C6_dnf_exit_statuses (fun _ => none) (fun _ => "")).1 2 (some (.obj []))
      (by decide) (by decide),
   (C6_dnf_exit_statuses (fun _ => none) (fun _ => "")).2.1 100⟩

/-- The spec-side counting predicate: the is_security_update field of the
record is the boolean true. -/
def isSecTrue (u : PyDict) : Bool :=
  match dictGet u "is_security_update" with
  | some (.bool b) => b
  | _ => false

/-- C3: in every report whose update records carry a boolean
is_security_update field (as every record produced by either backend does,
per the second and third conjunct), total_updates equals the length of the
updates list and security_updates equals the number of updates whose
is_security_update field is true. -/
theorem C3_report_counts :
    (∀ (ts hn : String) (dist : PyDict) (updates : List PyDict),
      (∀ u ∈ updates, ∃ b : Bool, dictGet u "is_security_update" = some (.bool b)) →
      dictGet (output_data ts hn dist updates) "total_updates" =
        some (.num (updates.length : Int)) ∧
      dictGet (output_data ts hn dist updates) "security_updates" =
        some (.num ((updates.filter isSecTrue).length : Int))) ∧
    (∀ (d p : String → Option String) (line : String) (r : PyDict),
      AptPackageManager.processLine d p line = some (some r) →
      ∃ b : Bool, dictGet r "is_security_update" = some (.bool b)) ∧
    (∀ (dd : String → Option String) (s : String → String) (pkg : Json) (r : PyDict),
      DnfPackageManager.buildRecord dd s pkg = .ok r →
      ∃ b : Bool, dictGet r "is_security_update" = some (.bool b)) := by
  refine ⟨?_, ?_, ?_⟩
  · intro ts hn dist updates hb
    constructor
    · rfl
    · have hfil : updates.filter
          (fun u => pyTruthy (jsonGet u "is_security_update" (.bool false))) =
          updates.filter isSecTrue := by
        apply List.filter_congr
        intro u hu
        obtain ⟨b, hub⟩ := hb u hu
        simp [jsonGet, hub, pyTruthy, isSecTrue]
      have hget : dictGet (output_data ts hn dist updates) "security_updates" =
          some (.num (((updates.filter
            (fun u => pyTruthy (jsonGet u "is_security_update" (.bool false)))).length : Int))) := rfl
      rw [hget, hfil]
  · intro d p line r hr
    obtain ⟨tail1, -, -, hrec⟩ := processLine_some_inv d p line r hr
    rw [hrec]
    exact ⟨_, (aptRecord_base_fields d p (pySplitWs line) tail1).2.2.2.2⟩
  · intro dd s pkg r hr
    obtain ⟨kvs, nameS, -, -, hrec⟩ := buildRecord_ok_inv dd s pkg r hr
    rw [hrec]
    exact ⟨_, (dnfRecord_fields dd s kvs nameS).2.2⟩

/-- C3 witness: the theorem applied to a one-record report with a boolean
true security flag; both counts evaluate as claimed. -/
theorem C3_report_counts_witness :
    dictGet (output_data "t" "h" [] [[("is_security_update", Json.bool true)]])
      "total_updates" = some (.num (1 : Int)) ∧
    dictGet (output_data "t" "h" [] [[("is_security_update", Json.bool true)]])
      "security_updates" = some (.num (1 : Int)) :=
  C3_report_counts.1 "t" "h" [] [[("is_security_update", Json.bool true)]]
    (by intro u hu; rw [List.mem_singleton.mp hu]; exact ⟨true, rfl⟩)

/-- C7: the APT security classifier returns false when the policy tool
invocation fails, and otherwise returns true exactly when some substring of
the output lowercases to the word security, i.e. when security appears
case-insensitively anywhere in the output. -/
theorem C7_apt_security_heuristic :
    AptPackageManager._is_security_update none = false ∧
    ∀ out : String, (AptPackageManager._is_security_update (some out) = true ↔
      ∃ l m r : List Char, out.data = l ++ m ++ r ∧
        m.map Char.toLower = "security".data) := by
  refine ⟨rfl, ?_⟩
  intro out
  show pyContains (pyLower out) "security" = true ↔ _
  unfold pyContains pyLower
  rw [listInfixOf_iff]
  constructor
  · rintro ⟨l, r, hr⟩
    obtain ⟨l1, l2, hsplit, hl1, hl2⟩ := List.map_eq_append_iff.mp hr
    obtain ⟨m, r2, hsplit2, hm, hr2⟩ := List.map_eq_append_iff.mp hl2
    exact ⟨l1, m, r2, by rw [hsplit, hsplit2, List.append_assoc], hm⟩
  · rintro ⟨l, m, r, hout, hm⟩
    refine ⟨l.map Char.toLower, r.map Char.toLower, ?_⟩
    rw [hout]
    simp [List.map_append, hm]

/-- C7 witness: the theorem applied to the concrete policy output
500 Security updates, which the classifier marks as a security update. -/
theorem C7_apt_security_heuristic_witness :
    ∃ l m r : List Char, "500 Security updates".data = l ++ m ++ r ∧
      m.map Char.toLower = "security".data :=
  (C7_apt_security_heuristic.2 "500 Security updates").mp rfl

/-- C10: the DNF security classifier applied to the empty package name
returns true for every advisory-listing output, because the empty string is
a substring of every string; consequently every parsed update entry without
a name key is classified as a security update. -/
theorem C10_dnf_empty_name_security :
    (∀ out : String, DnfPackageManager._is_security_update "" out = true) ∧
    (∀ (dd : String → Option String) (s : String → String) (kvs : PyDict),
      (∀ q ∈ kvs, q.1 ≠ "name") →
      ∀ r : PyDict, DnfPackageManager.buildRecord dd s (.obj kvs) = .ok r →
        dictGet r "is_security_update" = some (.bool true)) := by
  have hempty : ∀ out : String, DnfPackageManager._is_security_update "" out = true := by
    intro out
    exact pyContains_empty out
  refine ⟨hempty, ?_⟩
  intro dd s kvs hk r hr
  have hname : jsonGet kvs "name" (.str "") = .str "" := by
    unfold jsonGet dictGet
    rw [List.find?_eq_none.mpr (fun q hq => by simp [hk q hq])]
    rfl
  obtain ⟨kvs2, nameS, hobj, hname2, hrec⟩ := buildRecord_ok_inv dd s _ r hr
  injection hobj with hkv
  subst hkv
  rw [hname] at hname2
  injection hname2 with hns
  subst hns
  rw [hrec]
  rw [(dnfRecord_fields dd s kvs "").2.2, hempty (s "")]

/-- C10 witness: the theorem applied to the empty advisory output and to a
parsed entry with no keys at all; the resulting record is flagged as a
security update. -/
theorem C10_dnf_empty_name_security_witness :
    DnfPackageManager._is_security_update "" "" = true ∧
    dictGet (DnfPackageManager.dnfRecord (fun _ => none) (fun _ => "") [] "")
      "is_security_update" = some (.bool true) :=
  ⟨C10_dnf_empty_name_security.1 "",
   C10_dnf_empty_name_security.2 (fun _ => none) (fun _ => "") []
     (by intro q hq; simp at hq) _ rfl⟩

theorem processLine_skip_blank (d p : String → Option String) (line : String)
    (h : pyStrip line = "") :
    AptPackageManager.processLine d p line = some none := by
  unfold AptPackageManager.processLine
  rw [if_pos h]

theorem processLine_skip_short (d p : String → Option String) (line : String)
    (hlen : (pySplitWs line).length < 4) :
    AptPackageManager.processLine d p line = some none := by
  by_cases hblank : pyStrip line = ""
  · exact processLine_skip_blank d p line hblank
  · unfold AptPackageManager.processLine
    rw [if_neg hblank]
    simp only [AptPackageManager.parseLineBody]
    rw [if_pos hlen]

theorem processLine_skip_marker_absent (d p : String → Option String)
    (line : String)
    (hlen1 : (pySplitOn line "[upgradable from: ").length ≤ 1) :
    AptPackageManager.processLine d p line = some none := by
  by_cases hblank : pyStrip line = ""
  · exact processLine_skip_blank d p line hblank
  · by_cases hlen : (pySplitWs line).length < 4
    · exact processLine_skip_short d p line hlen
    · unfold AptPackageManager.processLine
      rw [if_neg hblank]
      simp only [AptPackageManager.parseLineBody]
      rw [if_neg hlen, List.get?_eq_none.mpr hlen1]

/-- The update-listing line of the spec example. -/
def c4line : String :=
  "curl/focal-updates 7.68.0-1ubuntu2.18 amd64 [upgradable from: 7.68.0-1ubuntu2.16]"

/-- C4: on the example line, for every detail and policy oracle, the APT
line parser produces a record with name curl, version 7.68.0-1ubuntu2.18,
current_version 7.68.0-1ubuntu2.16 and architecture amd64. -/
theorem C4_apt_example_line (d p : String → Option String) :
    ∃ r : PyDict,
      AptPackageManager.processLine d p c4line = some (some r) ∧
      dictGet r "name" = some (.str "curl") ∧
      dictGet r "version" = some (.str "7.68.0-1ubuntu2.18") ∧
      dictGet r "current_version" = some (.str "7.68.0-1ubuntu2.16") ∧
      dictGet r "architecture" = some (.str "amd64") := by
  refine ⟨AptPackageManager.aptRecord d p (pySplitWs c4line) "7.68.0-1ubuntu2.16]",
    rfl, ?_, ?_, ?_, ?_⟩
  · rw [(aptRecord_base_fields d p (pySplitWs c4line) "7.68.0-1ubuntu2.16]").1]
    rfl
  · rw [(aptRecord_base_fields d p (pySplitWs c4line) "7.68.0-1ubuntu2.16]").2.1]
    rfl
  · rw [(aptRecord_base_fields d p (pySplitWs c4line) "7.68.0-1ubuntu2.16]").2.2.1]
    rfl
  · rw [(aptRecord_base_fields d p (pySplitWs c4line) "7.68.0-1ubuntu2.16]").2.2.2.1]
    rfl

/-- C5: APT parser safety: the header line is always dropped; blank lines,
lines with fewer than 4 whitespace tokens, and lines without the
upgradable-from marker each produce no record and no escaping exception; no
input line ever lets an exception escape the per-line handler; and a line
that produces no record is skipped individually without aborting the scan
of the surrounding lines. -/
theorem C5_apt_parser_safety (d p : String → Option String) :
    (∀ (stdout header : String) (rest : List String),
      pySplitOn (pyStrip stdout) "\n" = header :: rest →
      AptPackageManager.get_available_updates (some stdout) d p =
        AptPackageManager.scanLines d p rest) ∧
    (∀ line : String, pyStrip line = "" →
      AptPackageManager.processLine d p line = some none) ∧
    (∀ line : String, (pySplitWs line).length < 4 →
      AptPackageManager.processLine d p line = some none) ∧
    (∀ line : String, (pySplitOn line "[upgradable from: ").length ≤ 1 →
      AptPackageManager.processLine d p line = some none) ∧
    (∀ line : String, (AptPackageManager.processLine d p line).isSome = true) ∧
    (∀ (pre post : List String) (line : String),
      AptPackageManager.processLine d p line = some none →
      AptPackageManager.scanLines d p (pre ++ line :: post) =
        AptPackageManager.scanLines d p pre ++ AptPackageManager.scanLines d p post) := by
  refine ⟨?_, processLine_skip_blank d p, processLine_skip_short d p,
    processLine_skip_marker_absent d p, ?_, ?_⟩
  · intro stdout header rest h
    have hdef : AptPackageManager.get_available_updates (some stdout) d p =
        AptPackageManager.scanLines d p ((pySplitOn (pyStrip stdout) "\n").drop 1) := rfl
    rw [hdef, h]
    rfl
  · intro line
    by_cases hblank : pyStrip line = ""
    · rw [processLine_skip_blank d p line hblank]
      rfl
    · by_cases hlen : (pySplitWs line).length < 4
      · rw [processLine_skip_short d p line hlen]
        rfl
      · unfold AptPackageManager.processLine
        rw [if_neg hblank]
        simp only [AptPackageManager.parseLineBody]
        rw [if_neg hlen]
        cases hm : (pySplitOn line "[upgradable from: ").get? 1 with
        | none => rfl
        | some tail1 => rfl
  · intro pre post line h
    unfold AptPackageManager.scanLines
    rw [List.filterMap_append]
    congr 1
    rw [List.filterMap_cons, h]
    rfl

/-- C5 witness: the theorem applied to concrete oracles and lines: a
two-token line and a line without the upgradable-from marker each produce
no record, and a malformed line between two good lines is skipped without
aborting the scan. -/
theorem C5_apt_parser_safety_witness :
    AptPackageManager.processLine (fun _ => none) (fun _ => none)
      "Listing... Done" = some none ∧
    AptPackageManager.processLine (fun _ => none) (fun _ => none)
      "one two three four" = some none ∧
    AptPackageManager.scanLines (fun _ => none) (fun _ => none)
      ["a/x 1 amd64 [upgradable from: 0]", "Listing... Done",
       "b/y 2 all [upgradable from: 1]"] =
      AptPackageManager.scanLines (fun _ => none) (fun _ => none)
        ["a/x 1 amd64 [upgradable from: 0]"] ++
      AptPackageManager.scanLines (fun _ => none) (fun _ => none)
        ["b/y 2 all [upgradable from: 1]"] :=
  ⟨(C5_apt_parser_safety (fun _ => none) (fun _ => none)).2.2.1
      "Listing... Done" (by decide),
   (C5_apt_parser_safety (fun _ => none) (fun _ => none)).2.2.2.1
      "one two three four" (by decide),
   (C5_apt_parser_safety (fun _ => none) (fun _ => none)).2.2.2.2.2
      ["a/x 1 amd64 [upgradable from: 0]"] ["b/y 2 all [upgradable from: 1]"]
      "Listing... Done"
      ((C5_apt_parser_safety (fun _ => none) (fun _ => none)).2.2.1
        "Listing... Done" (by decide))⟩

/-- The parsed dnf JSON of the C2 counterexample: one update entry with no
keys at all. -/
def c2Parsed : Json := .obj [("updates", .arr [.obj []])]

/-- The record the DNF backend builds from that entry. -/
def c2Record : PyDict :=
  [("name", .str ""), ("version", .str ""), ("release", .str ""),
   ("architecture", .str ""), ("repository", .str ""),
   ("current_version", .str ""), ("is_security_update", .bool true)]

/-- The line of the APT half of the C2 counterexample: the first token
begins with a slash, so the extracted package name is the empty string. -/
def c2AptLine : String := "/x 1 amd64 [upgradable from: 0]"

/-- The record the APT backend builds from that line. -/
def c2AptRecord : PyDict :=
  [("name", .str ""), ("version", .str "1"), ("current_version", .str "0"),
   ("architecture", .str "amd64"), ("is_security_update", .bool false)]

/-- C2 counterexample: both backends include records with empty fields
instead of dropping them.  The DNF backend, on exit status 100 and an
update entry whose name and version keys are absent, returns a record whose
name and version are the empty string; the APT backend, on a line whose
first token begins with a slash, includes a record whose name is the empty
string. -/
theorem C2_counterexample :
    (DnfPackageManager.get_available_updates 100 (some c2Parsed)
        (fun _ => none) (fun _ => "") = .ok [c2Record] ∧
      dictGet c2Record "name" = some (.str "") ∧
      dictGet c2Record "version" = some (.str "")) ∧
    (AptPackageManager.processLine (fun _ => none) (fun _ => none) c2AptLine =
        some (some c2AptRecord) ∧
      dictGet c2AptRecord "name" = some (.str "")) :=
  ⟨⟨rfl, rfl, rfl⟩, rfl, rfl⟩

/-- C2 amended: APT lines whose fields cannot be extracted (fewer than 4
whitespace tokens, or no upgradable-from marker) are dropped, and every
included APT record has a non-empty version (a whitespace token of the
source line); the DNF backend includes a record for every update entry
that is a JSON dictionary whose name value is a string or absent, with
missing name or version keys defaulting to the empty string; neither
backend validates that name or version is non-empty (the counterexample
exhibits an included APT record with empty name and an included DNF record
with empty name and version). -/
theorem C2_amended (d p : String → Option String) :
    (∀ line : String, (pySplitWs line).length < 4 →
      AptPackageManager.processLine d p line = some none) ∧
    (∀ line : String, (pySplitOn line "[upgradable from: ").length ≤ 1 →
      AptPackageManager.processLine d p line = some none) ∧
    (∀ (line : String) (r : PyDict),
      AptPackageManager.processLine d p line = some (some r) →
      ∃ v : String, dictGet r "version" = some (.str v) ∧ v ≠ "") ∧
    (∀ (dd : String → Option String) (s : String → String) (kvs : PyDict)
      (nameS : String), jsonGet kvs "name" (.str "") = .str nameS →
      ∃ r : PyDict, DnfPackageManager.buildRecord dd s (.obj kvs) = .ok r ∧
        dictGet r "name" = some (.str nameS) ∧
        dictGet r "version" = some (jsonGet kvs "version" (.str ""))) := by
  refine ⟨processLine_skip_short d p, processLine_skip_marker_absent d p,
    ?_, ?_⟩
  · intro line r hr
    obtain ⟨tail1, hlen, -, hrec⟩ := processLine_some_inv d p line r hr
    rw [hrec]
    refine ⟨(pySplitWs line).getD 1 "",
      (aptRecord_base_fields d p (pySplitWs line) tail1).2.1, ?_⟩
    have h1 : 1 < (pySplitWs line).length := by omega
    rw [List.getD_eq_getElem _ _ h1]
    exact pySplitWs_ne_empty line _ (List.getElem_mem h1)
  · intro dd s kvs nameS hname
    refine ⟨DnfPackageManager.dnfRecord dd s kvs nameS, ?_, ?_, ?_⟩
    · simp only [DnfPackageManager.buildRecord, hname]
    · rw [(dnfRecord_fields dd s kvs nameS).1, hname]
    · exact (dnfRecord_fields dd s kvs nameS).2.1

/-- C2 amended witness: the theorem applied at concrete inputs: a two-token
line and a marker-less line are dropped, a concrete well-formed line parses
to a record with the non-empty version 2.0, and a parsed entry carrying
only a version key is included with empty name and that version value. -/
theorem C2_amended_witness :
    (AptPackageManager.processLine (fun _ => none) (fun _ => none)
      "alpha beta" = some none) ∧
    (AptPackageManager.processLine (fun _ => none) (fun _ => none)
      "alpha beta gamma delta" = some none) ∧
    (∃ v : String,
      dictGet (AptPackageManager.aptRecord (fun _ => none) (fun _ => none)
        (pySplitWs "pkg/src 2.0 all [upgradable from: 1.0]") "1.0]")
        "version" = some (.str v) ∧ v ≠ "") ∧
    (∃ r : PyDict,
      DnfPackageManager.buildRecord (fun _ => none) (fun _ => "")
        (.obj [("version", Json.str "9")]) = .ok r ∧
      dictGet r "name" = some (.str "") ∧
      dictGet r "version" =
        some (jsonGet [("version", Json.str "9")] "version" (.str ""))) :=
  ⟨(C2_amended (fun _ => none) (fun _ => none)).1 "alpha beta" (by decide),
   (C2_amended (fun _ => none) (fun _ => none)).2.1
     "alpha beta gamma delta" (by decide),
   (C2_amended (fun _ => none) (fun _ => none)).2.2.1
     "pkg/src 2.0 all [upgradable from: 1.0]" _ rfl,
   (C2_amended (fun _ => none) (fun _ => none)).2.2.2 (fun _ => none)
     (fun _ => "") [("version", Json.str "9")] "" rfl⟩

/-- C9: the APT detail parser only ever emits keys from its fixed key set,
the DNF detail parser likewise, both key sets are disjoint from the base
record fields, and therefore merging a detail map into a record never
changes any base field. -/
theorem C9_enrichment_frame :
    (∀ out : Option String, ∀ q ∈ AptPackageManager._get_package_details out,
      q.1 ∈ aptDetailKeys) ∧
    (∀ out : Option String, ∀ q ∈ DnfPackageManager._get_package_details out,
      q.1 ∈ dnfDetailKeys) ∧
    (∀ a ∈ aptDetailKeys ++ dnfDetailKeys, ∀ b ∈ baseFieldKeys, a ≠ b) ∧
    (∀ (rec : PyDict) (out : Option String) (k : String), k ∈ baseFieldKeys →
      dictGet (dictUpdate rec (AptPackageManager._get_package_details out)) k =
        dictGet rec k) ∧
    (∀ (rec : PyDict) (out : Option String) (k : String), k ∈ baseFieldKeys →
      dictGet (dictUpdate rec (DnfPackageManager._get_package_details out)) k =
        dictGet rec k) :=
  ⟨apt_details_keys, dnf_details_keys, apt_dnf_keys_disjoint,
   fun rec out k hk => apt_update_frame rec out k hk,
   fun rec out k hk => dnf_update_frame rec out k hk⟩

/-- C9 witness: the theorem applied to a concrete record and detail output:
after merging a detail map carrying size and website, the name field is
unchanged. -/
theorem C9_enrichment_frame_witness :
    dictGet (dictUpdate [("name", Json.str "curl")]
      (AptPackageManager._get_package_details
        (some "Size: 10\nHomepage: example"))) "name" =
      dictGet [("name", Json.str "curl")] "name" :=
  C9_enrichment_frame.2.2.2.1 [("name", Json.str "curl")]
    (some "Size: 10\nHomepage: example") "name" (by simp [baseFieldKeys])

end Pmgmt
